import Mathlib

/-!
Verification development for the adk-playground repository.

The load-bearing subsystem is the zipdeck sequential pipeline
(`src/redi_mcp_zipdeck/agent.py`): a query classifier, a data retriever,
a data formatter and a slide builder, run in declaration order by a
sequential controller that publishes each stage's output under its
declared output key.  The classifier / retriever / formatter behaviours
are specified in the repository as deterministic rule sets (prompt
instructions); they are embedded here as executable functions following
those rules.  The sequential controller itself is library code not
present in the repository, so it is modelled from the specification's
state machine.  `get_weather` (`src/tools/weather_tool.py`) is ordinary
Python and is embedded directly.
-/

namespace AdkPlayground

/-! ## Tokenisation of the raw query text

The classifier's rule set works on 5-digit runs and on lowercased word
tokens (`vs`, `versus`, `compared to/with`, `compare`, `comparing`,
`difference between`, `with`, `to`, `and`).  A query is tokenised into
maximal digit runs and maximal (lowercased) letter runs; every other
character only separates tokens. -/

inductive Token where
  | word (s : String)
  | num (s : String)
deriving DecidableEq, Repr

inductive TKind where
  | blank
  | digits
  | letters
deriving DecidableEq, Repr

/-- Finish the token currently being built (`run` holds its characters in
reverse order). -/
def flushRun (run : List Char) (k : TKind) : List Token :=
  match k with
  | .digits => [Token.num (String.mk run.reverse)]
  | .letters => [Token.word (String.mk run.reverse)]
  | .blank => []

/-- Scan the character list, building maximal digit runs and maximal
lowercased letter runs. -/
def tokenRun : List Char → List Char → TKind → List Token
  | [], run, k => flushRun run k
  | c :: cs, run, k =>
    if c.isDigit then
      match k with
      | .digits => tokenRun cs (c :: run) .digits
      | _ => flushRun run k ++ tokenRun cs [c] .digits
    else if c.isAlpha then
      match k with
      | .letters => tokenRun cs (c.toLower :: run) .letters
      | _ => flushRun run k ++ tokenRun cs [c.toLower] .letters
    else
      flushRun run k ++ tokenRun cs [] .blank

def tokenize (q : String) : List Token :=
  tokenRun q.data [] .blank

/-- A maximal digit run counts as a postal code exactly when it has
exactly 5 digits (rule 1 of the classifier's parsing rules). -/
def codeOfTok : Token → Option String
  | .num s => if s.length = 5 then some s else none
  | .word _ => none

/-- All postal codes of a token list, preserving order of appearance. -/
def codesOf (ts : List Token) : List String :=
  ts.filterMap codeOfTok

/-! ## Separator, conjunction and keyword detection -/

/-- Does a separator token start here?  (`vs`, `versus`,
`compared to`, `compared with` — rule 2 of the parsing rules.) -/
def isSepHere : Token → List Token → Bool
  | .word w, rest =>
    w = "vs" || w = "versus" ||
      (w = "compared" &&
        (match rest with
         | .word n :: _ => n = "to" || n = "with"
         | _ => false))
  | .num _, _ => false

/-- Conjunction splitting a `compare X with/to Y` pattern. -/
def isConjHere : Token → List Token → Bool
  | .word w, _ => w = "with" || w = "to"
  | .num _, _ => false

/-- The conjunction `and` of the `comparing A and B` pattern. -/
def isAndHere : Token → List Token → Bool
  | .word w, _ => w = "and"
  | .num _, _ => false

/-- Index of the first position where `p` fires. -/
def findTokIdx (p : Token → List Token → Bool) : List Token → Option Nat
  | [] => none
  | t :: rest => if p t rest then some 0 else (findTokIdx p rest).map (· + 1)

/-- Comparison keywords: `compare`, `comparing`, `difference between`. -/
def hasCompareKeyword : List Token → Bool
  | [] => false
  | .word "compare" :: _ => true
  | .word "comparing" :: _ => true
  | .word "difference" :: .word "between" :: _ => true
  | _ :: rest => hasCompareKeyword rest

/-! ## The classifier's output -/

inductive ComparisonType where
  | single
  | aggregate
  | comparison
deriving DecidableEq, Repr

structure QueryStructure where
  comparison_type : ComparisonType
  left_group : List String
  right_group : Option (List String)
  original_query : String
deriving DecidableEq, Repr

inductive ParseError where
  | noCodes
deriving DecidableEq, Repr

/-- Rule 5: no comparison structure was found — more than one code means
`aggregate` over all codes, exactly one means `single`. -/
def fallbackClassify (codes : List String) (q : String) : QueryStructure :=
  if codes.length = 1 then ⟨.single, codes, none, q⟩
  else ⟨.aggregate, codes, none, q⟩

/-- Split the codes of a `compare … and …` pattern into a 1-vs-1
comparison, which the rule set allows only for two individual codes. -/
def andSplit (ts : List Token) : Option (List String × List String) :=
  match findTokIdx isAndHere ts with
  | some j =>
    match codesOf (ts.take j), codesOf (ts.drop (j + 1)) with
    | [a], [b] => some ([a], [b])
    | _, _ => none
  | none => none

/-- Rule 4: a comparison keyword without a separator splits the codes at
a conjunction (`with`/`to`, falling back to a two-code `and`), provided
both resulting clusters are non-empty. -/
def conjSplit (ts : List Token) : Option (List String × List String) :=
  match findTokIdx isConjHere ts with
  | some j =>
    let l := codesOf (ts.take j)
    let r := codesOf (ts.drop (j + 1))
    if l.isEmpty || r.isEmpty then andSplit ts else some (l, r)
  | none => andSplit ts

/-- The Query Classifier Stage, embedded from the parsing rule set of
`query_analyzer` (rules 1–6 of the spec's §4.1, matching the prompt's
PARSING RULES): extract 5-digit runs, detect separators and comparison
keywords, split into groups, fall back to `single`/`aggregate`, fail on
zero codes.

Modelled from the spec where the prompt is silent: failing with a
validation error when zero postal codes are extracted (§4.1 rule 6) and
treating ambiguous keyword groupings as `aggregate` (§4.1 edge-case
policy) are taken from the specification, since the stage is executed by
an opaque completion capability. -/
def classify (q : String) : Except ParseError QueryStructure :=
  let ts := tokenize q
  let codes := codesOf ts
  if codes.isEmpty then .error .noCodes
  else
    match findTokIdx isSepHere ts with
    | some i =>
      let l := codesOf (ts.take i)
      let r := codesOf (ts.drop (i + 1))
      if l.isEmpty || r.isEmpty then .ok (fallbackClassify codes q)
      else .ok ⟨.comparison, l, some r, q⟩
    | none =>
      if hasCompareKeyword ts then
        match conjSplit ts with
        | some (l, r) => .ok ⟨.comparison, l, some r, q⟩
        | none => .ok (fallbackClassify codes q)
      else .ok (fallbackClassify codes q)

/-! ## Generic structured values

Stage outputs and panel payloads are JSON-like dictionaries; a small
value type lets the panel-shape contracts be stated as predicates on the
actual structure rather than being true by typing. -/

inductive JValue where
  | str (s : String)
  | arr (xs : List JValue)
  | obj (fields : List (String × JValue))
deriving Repr

/-- A `{label, value}` pair with string values. -/
def isItem : JValue → Bool
  | .obj [("label", .str _), ("value", .str _)] => true
  | _ => false

/-- The `{title, items[]}` shape of the side panels. -/
def isPanelShape : JValue → Bool
  | .obj [("title", .str _), ("items", .arr items)] => items.all isItem
  | _ => false

/-- The `{title, text}` shape of the bottom panel. -/
def isBottomShape : JValue → Bool
  | .obj [("title", .str _), ("text", .str _)] => true
  | _ => false

/-- Does an object carry a field with the given key? -/
def hasField : JValue → String → Bool
  | .obj fields, k => fields.any (fun f => f.1 = k)
  | _, _ => false

/-! ## The sequential pipeline controller

`root_agent` is a `SequentialAgent` over the four stages; the
controller's execution semantics (the §4.5 state machine) live in the
agent library, not in the repository, so they are modelled from the
spec.

Modelled from the spec: strict in-order execution, publication of each
completed stage's output under its declared output key into the shared
per-run context, and an immediate transition to `Failed` on the first
stage failure with no further stage executed. -/

abbrev PContext : Type := List (String × JValue)

structure PStage where
  name : String
  outputKey : Option String
  runStage : PContext → Except String JValue

inductive PState where
  | idle
  | running (i : Nat)
  | completed
  | failed (i : Nat) (cause : String)

/-- Publish a completed stage's output under its output key (stages
without an output key publish nothing). -/
def publish (ctx : PContext) (k : Option String) (v : JValue) : PContext :=
  match k with
  | some key => ctx ++ [(key, v)]
  | none => ctx

/-- Run the remaining stages in order, starting at absolute stage index
`i`; returns the final controller state, the final context, and the
trace of executed stage names in execution order. -/
def runFrom : List PStage → Nat → PContext → PState × PContext × List String
  | [], _, ctx => (.completed, ctx, [])
  | s :: rest, i, ctx =>
    match s.runStage ctx with
    | .error e => (.failed i e, ctx, [s.name])
    | .ok v =>
      let next := runFrom rest (i + 1) (publish ctx s.outputKey v)
      (next.1, next.2.1, s.name :: next.2.2)

def runPipeline (stages : List PStage) (ctx : PContext) :
    PState × PContext × List String :=
  runFrom stages 0 ctx

/-- The four stages of `root_agent`, with the names and output keys
declared in `src/redi_mcp_zipdeck/agent.py` (stage behaviours are
opaque capability invocations, hence parameters). -/
def rootAgentStages (f1 f2 f3 f4 : PContext → Except String JValue) :
    List PStage :=
  [⟨"query_analyzer", some "query_structure", f1⟩,
   ⟨"zip_data_retriever", some "zip_data", f2⟩,
   ⟨"data_formatter", some "slide_params", f3⟩,
   ⟨"slide_builder", none, f4⟩]

/-! ## The Data Retrieval Stage

`zip_data_retriever` calls the external `get_zips` operation once with
`left_zips` and, exactly when `right_zips` is present, once more with
`right_zips`, storing the raw tool outputs verbatim.  The embedding also
returns the trace of fetch-call arguments, in call order. -/

structure RawDataBundle (α : Type) where
  left_data : α
  right_data : Option α
deriving DecidableEq, Repr

def zip_data_retriever {α : Type} (fetch : List String → α)
    (qs : QueryStructure) : RawDataBundle α × List (List String) :=
  let ld := fetch qs.left_group
  match qs.right_group with
  | some rg => (⟨ld, some (fetch rg)⟩, [qs.left_group, rg])
  | none => (⟨ld, none⟩, [qs.left_group])

/-! ## The Formatting Stage -/

/-- Raw demographic data for one group, as returned by the external
fetch operation: each known category is either present (ranked
name/index entries, or names, or a composition summary) or absent. -/
structure ZipData where
  top_retailers : Option (List (String × String))
  social_platforms : Option (List (String × String))
  influencers : Option (List (String × String))
  top_qsrs : Option (List String)
  audience : Option String
deriving DecidableEq, Repr

/-- Comma-separated `Name (XXi)` rendering of ranked name/index
entries. -/
def fmtIndexed (l : List (String × String)) : String :=
  String.intercalate ", " (l.map (fun e => e.1 ++ " (" ++ e.2 ++ "i)"))

/-- Comma-separated `Name (Platform)` rendering of influencer
entries. -/
def fmtPlatformed (l : List (String × String)) : String :=
  String.intercalate ", " (l.map (fun e => e.1 ++ " (" ++ e.2 ++ ")"))

def mkItem (label value : String) : JValue :=
  .obj [("label", .str label), ("value", .str value)]

/-- Build a panel's items from the known categories, omitting any
category absent from the raw bundle (never fabricating a value). -/
def panelItems (d : ZipData) : List JValue :=
  (d.top_retailers.map (fun l => mkItem "Retail" (fmtIndexed l))).toList ++
  (d.social_platforms.map
    (fun l => mkItem "Social Platforms" (fmtIndexed l))).toList ++
  (d.influencers.map
    (fun l => mkItem "Top Influencers" (fmtPlatformed l))).toList ++
  (d.top_qsrs.map
    (fun l => mkItem "QSR" (String.intercalate ", " l))).toList ++
  (d.audience.map (fun a => mkItem "Audience" a)).toList

def mkPanel (title : String) (d : ZipData) : JValue :=
  .obj [("title", .str title), ("items", .arr (panelItems d))]

def mkBottom (title text : String) : JValue :=
  .obj [("title", .str title), ("text", .str text)]

def joinCodes (codes : List String) : String :=
  String.intercalate ", " codes

def panelTitle (codes : List String) : String :=
  (if codes.length = 1 then "ZIP Code " else "ZIP Codes ") ++
    joinCodes codes ++ " Insights"

/-- Bullet-style multi-line text: lines joined by a newline plus bullet
marker, as the bottom panel's single text string. -/
def bulletText (header : String) (points : List String) : String :=
  header ++ String.join (points.map (fun p => "\n• " ++ p))

/-- Best-effort recommendation lines synthesized from present
categories (content is a non-deterministic downstream concern; only the
container shape is contractual). -/
def recommendationPoints (d : ZipData) : List String :=
  (d.top_retailers.map
    (fun l => "Partner with high-index retailers: " ++ fmtIndexed l)).toList ++
  (d.social_platforms.map
    (fun l => "Leverage " ++ fmtIndexed l ++ " for campaigns")).toList ++
  (d.audience.map (fun a => "Focus on audience segment: " ++ a)).toList

/-! ### Region-code inference

Modelled from the spec: the fixed numeric-range-to-region table mapping
the leading digits of the first `left_group` code to a 2-letter region
code lives inside the opaque completion capability (the prompt says
"use your internal general knowledge"), so the table below is the
spec's fixed-table rendering, covering the prompt's cited examples
(30045 → GA, 10001 → NY, 90210 → CA, 60601 → IL). -/

def zipRegionTable : List (Nat × Nat × String) :=
  [(10000, 14999, "NY"), (30000, 31999, "GA"), (60000, 62999, "IL"),
   (90000, 96199, "CA")]

def regionOfZip (z : String) : Option String :=
  match z.toNat? with
  | some n => (zipRegionTable.find? (fun e => e.1 ≤ n && n ≤ e.2.1)).map
      (fun e => e.2.2)
  | none => none

/-- Best-effort placeholder used when the region is unresolvable. -/
def placeholderRegion : String := "??"

/-- Region of the first code of `left_group`, falling back softly to the
placeholder. -/
def inferState (zips : List String) : String :=
  match zips with
  | [] => placeholderRegion
  | z :: _ => (regionOfZip z).getD placeholderRegion

inductive FormattingError where
  | missingRightGroup
  | missingRightData
deriving DecidableEq, Repr

/-- The Formatting Stage's output: the exact contract the Render Stage
requires. -/
structure SlideParameters where
  title : String
  state : String
  zip_codes_left : List String
  left_panel : JValue
  zip_codes_right : Option (List String)
  right_panel : Option JValue
  bottom_panel : JValue
deriving Repr

/-- The Formatting Stage, embedded from `data_formatter`'s formatting
rules: `single`/`aggregate` populate only the left panel; `comparison`
populates both panels symmetrically (aborting when the structurally
required right-hand source is absent); the bottom panel is always the
`{title, text}` recommendations container. -/
def data_formatter (qs : QueryStructure) (bundle : RawDataBundle ZipData) :
    Except FormattingError SlideParameters :=
  match qs.comparison_type with
  | .comparison =>
    match qs.right_group, bundle.right_data with
    | some rz, some rd =>
      .ok
        { title := (if qs.left_group.length = 1 && rz.length = 1
                    then "ZIP Code " else "ZIP Codes ") ++
            joinCodes qs.left_group ++ " vs " ++ joinCodes rz
          state := inferState qs.left_group
          zip_codes_left := qs.left_group
          left_panel := mkPanel (panelTitle qs.left_group) bundle.left_data
          zip_codes_right := some rz
          right_panel := some (mkPanel (panelTitle rz) rd)
          bottom_panel := mkBottom "Comparison Insights"
            (bulletText "Key differences and opportunities:"
              (recommendationPoints bundle.left_data)) }
    | none, _ => .error .missingRightGroup
    | some _, none => .error .missingRightData
  | _ =>
    .ok
      { title := (if qs.left_group.length = 1 then "ZIP Code "
                  else "ZIP Codes ") ++ joinCodes qs.left_group
        state := inferState qs.left_group
        zip_codes_left := qs.left_group
        left_panel := mkPanel (panelTitle qs.left_group) bundle.left_data
        zip_codes_right := none
        right_panel := none
        bottom_panel := mkBottom "Strategic Recommendations"
          (bulletText "Based on the data, here are key recommendations:"
            (recommendationPoints bundle.left_data)) }

/-! ## get_weather (src/tools/weather_tool.py)

A total Python function returning a dict; embedded as an association
list.  (It contains no raise and no fallible operation, so totality of
the Lean function mirrors "never raises".) -/

/-- The single-quote character (used by the Python f-string in the
error message). -/
def sq : String := String.singleton (Char.ofNat 39)

def get_weather (city : String) : List (String × String) :=
  if city.toLower = "new york" then
    [("status", "success"),
     ("report",
      "The weather in New York is sunny with a temperature of 25 degrees Celsius (77 degrees Fahrenheit).")]
  else if city.toLower = "san francisco" then
    [("status", "success"),
     ("report",
      "The weather in San Francisco is foggy with a temperature of 18 degrees Celsius (64 degrees Fahrenheit).")]
  else if city.toLower = "london" then
    [("status", "success"),
     ("report",
      "The weather in London is rainy with a temperature of 12 degrees Celsius (54 degrees Fahrenheit).")]
  else
    [("status", "error"),
     ("error_message",
      "Weather information for " ++ sq ++ city ++ sq ++ " is not available.")]

/-- The cities for which `get_weather` has a canned success report. -/
def knownWeatherCities : List String :=
  ["new york", "san francisco", "london"]

/-! ## Concrete scenario inputs (from the spec's §8 testable properties
and the prompt's worked examples) -/

def scenarioAQuery : String := "Show me a slide for zip code 30045"

def scenarioBQuery : String := "30045, 30043 vs 30046, 30047"

def sampleQS : QueryStructure := ⟨.single, ["30045"], none, scenarioAQuery⟩

def sampleZipData : ZipData :=
  ⟨some [("Safeway", "97.0"), ("Meijer", "107.0")],
   some [("Instagram", "85.0")], none, some ["KFC"], none⟩

def sampleBundle : RawDataBundle ZipData := ⟨sampleZipData, none⟩

/-- The slide parameters the Formatting Stage produces for the sample
single-code input. -/
def sampleSlide : SlideParameters :=
  match data_formatter sampleQS sampleBundle with
  | .ok out => out
  | .error _ => ⟨"", "", [], .obj [], none, none, .obj []⟩

end AdkPlayground

namespace AdkPlayground

/-! ## Helper lemmas about tokenisation and code extraction -/

theorem codeOfTok_word (s : String) : codeOfTok (.word s) = none := rfl

theorem isSepHere_code_none {t : Token} {rest : List Token}
    (h : isSepHere t rest = true) : codeOfTok t = none := by
  cases t with
  | word s => rfl
  | num s => simp [isSepHere] at h

theorem isConjHere_code_none {t : Token} {rest : List Token}
    (h : isConjHere t rest = true) : codeOfTok t = none := by
  cases t with
  | word s => rfl
  | num s => simp [isConjHere] at h

theorem isAndHere_code_none {t : Token} {rest : List Token}
    (h : isAndHere t rest = true) : codeOfTok t = none := by
  cases t with
  | word s => rfl
  | num s => simp [isAndHere] at h

/-- Splitting the token list at a found non-code token partitions the
extracted codes: the codes of the whole list are exactly the codes
before the token followed by the codes after it, in order. -/
theorem codesOf_split_at_find (p : Token → List Token → Bool)
    (hp : ∀ t rest, p t rest = true → codeOfTok t = none) :
    ∀ (ts : List Token) (i : Nat), findTokIdx p ts = some i →
      codesOf ts = codesOf (ts.take i) ++ codesOf (ts.drop (i + 1)) := by
  intro ts
  induction ts with
  | nil => intro i h; simp [findTokIdx] at h
  | cons t rest ih =>
    intro i h
    cases hpt : p t rest with
    | true =>
      simp [findTokIdx, hpt] at h
      subst h
      simp [codesOf, List.filterMap_cons, hp t rest hpt]
    | false =>
      simp only [findTokIdx, hpt, Bool.false_eq_true, if_false,
        Option.map_eq_some'] at h
      obtain ⟨j, hj, hji⟩ := h
      subst hji
      have hrest := ih j hj
      cases hct : codeOfTok t with
      | none =>
        simpa [codesOf, List.filterMap_cons, hct] using hrest
      | some cd =>
        simpa [codesOf, List.filterMap_cons, hct] using hrest

theorem append_eq_single {α : Type} {l r : List α} {a : α}
    (h : l ++ r = [a]) : (l = [] ∧ r = [a]) ∨ (l = [a] ∧ r = []) := by
  cases l with
  | nil => exact Or.inl ⟨rfl, by simpa using h⟩
  | cons x xs =>
    refine Or.inr ?_
    simp only [List.cons_append, List.cons.injEq] at h
    obtain ⟨rfl, h2⟩ := h
    have hx : xs = [] ∧ r = [] := by simpa using h2
    simp [hx.1, hx.2]

/-! ## Helper lemmas about the keyword-splitting rules -/

theorem andSplit_eq_none (ts : List Token)
    (h : findTokIdx isAndHere ts = none) : andSplit ts = none := by
  unfold andSplit; rw [h]

theorem andSplit_eq_some (ts : List Token) (j : Nat)
    (h : findTokIdx isAndHere ts = some j) :
    andSplit ts =
      (match codesOf (ts.take j), codesOf (ts.drop (j + 1)) with
       | [a], [b] => some ([a], [b])
       | _, _ => none) := by
  unfold andSplit; rw [h]

theorem conjSplit_eq_none (ts : List Token)
    (h : findTokIdx isConjHere ts = none) : conjSplit ts = andSplit ts := by
  unfold conjSplit; rw [h]

theorem conjSplit_eq_some (ts : List Token) (j : Nat)
    (h : findTokIdx isConjHere ts = some j) :
    conjSplit ts =
      (if (codesOf (ts.take j)).isEmpty || (codesOf (ts.drop (j + 1))).isEmpty
       then andSplit ts
       else some (codesOf (ts.take j), codesOf (ts.drop (j + 1)))) := by
  unfold conjSplit; rw [h]

theorem andSplit_nonempty {ts : List Token} {l r : List String}
    (h : andSplit ts = some (l, r)) : l ≠ [] ∧ r ≠ [] := by
  cases hfi : findTokIdx isAndHere ts with
  | none => rw [andSplit_eq_none ts hfi] at h; exact absurd h (by simp)
  | some j =>
    rw [andSplit_eq_some ts j hfi] at h
    rcases hcl : codesOf (ts.take j) with _ | ⟨a, _ | ⟨a2, al⟩⟩ <;>
      rcases hcr : codesOf (ts.drop (j + 1)) with _ | ⟨b, _ | ⟨b2, bl⟩⟩ <;>
      rw [hcl, hcr] at h <;> simp at h
    obtain ⟨hl2, hr2⟩ := h
    subst hl2; subst hr2
    exact ⟨by simp, by simp⟩

theorem andSplit_of_singleton {ts : List Token} {c : String}
    (h : codesOf ts = [c]) : andSplit ts = none := by
  cases hfi : findTokIdx isAndHere ts with
  | none => exact andSplit_eq_none ts hfi
  | some j =>
    rw [andSplit_eq_some ts j hfi]
    have hpart := codesOf_split_at_find isAndHere
      (fun t rest ht => isAndHere_code_none ht) ts j hfi
    rw [h] at hpart
    rcases append_eq_single hpart.symm with ⟨h1, h2⟩ | ⟨h1, h2⟩ <;>
      rw [h1, h2]

theorem conjSplit_nonempty {ts : List Token} {l r : List String}
    (h : conjSplit ts = some (l, r)) : l ≠ [] ∧ r ≠ [] := by
  cases hfi : findTokIdx isConjHere ts with
  | none => rw [conjSplit_eq_none ts hfi] at h; exact andSplit_nonempty h
  | some j =>
    rw [conjSplit_eq_some ts j hfi] at h
    by_cases hc : ((codesOf (ts.take j)).isEmpty ||
        (codesOf (ts.drop (j + 1))).isEmpty) = true
    · rw [if_pos hc] at h; exact andSplit_nonempty h
    · rw [if_neg hc] at h
      simp only [Option.some.injEq, Prod.mk.injEq] at h
      obtain ⟨hl2, hr2⟩ := h
      subst hl2; subst hr2
      simp only [Bool.or_eq_true, not_or] at hc
      obtain ⟨hc1, hc2⟩ := hc
      constructor
      · intro hnil; exact hc1 (by simp [hnil])
      · intro hnil; exact hc2 (by simp [hnil])

theorem conjSplit_of_singleton {ts : List Token} {c : String}
    (h : codesOf ts = [c]) : conjSplit ts = none := by
  cases hfi : findTokIdx isConjHere ts with
  | none => rw [conjSplit_eq_none ts hfi]; exact andSplit_of_singleton h
  | some j =>
    rw [conjSplit_eq_some ts j hfi]
    have hpart := codesOf_split_at_find isConjHere
      (fun t rest ht => isConjHere_code_none ht) ts j hfi
    rw [h] at hpart
    rcases append_eq_single hpart.symm with ⟨h1, h2⟩ | ⟨h1, h2⟩ <;>
      simp [h1, h2, andSplit_of_singleton h]

/-- The fallback classification never produces a comparison, never sets
a right group, and keeps all extracted codes as the left group. -/
theorem fallbackClassify_spec (codes : List String) (q : String) :
    (fallbackClassify codes q).comparison_type ≠ .comparison ∧
    (fallbackClassify codes q).right_group = none ∧
    (fallbackClassify codes q).left_group = codes ∧
    (fallbackClassify codes q).original_query = q := by
  unfold fallbackClassify
  split <;> simp

theorem isEmpty_false_of_ne {α : Type} {l : List α} (h : l ≠ []) :
    l.isEmpty = false := by
  cases l with
  | nil => exact absurd rfl h
  | cons a t => rfl

theorem ne_nil_of_isEmpty_false {α : Type} {l : List α}
    (h : l.isEmpty = false) : l ≠ [] := by
  cases l with
  | nil => simp at h
  | cons a t => simp

/-! ## Unfolding equations for the classifier -/

theorem classify_eq_of_empty (q : String)
    (h : (codesOf (tokenize q)).isEmpty = true) :
    classify q = .error .noCodes := by
  simp only [classify, h, if_true]

theorem classify_eq_sep (q : String) (i : Nat)
    (hne : (codesOf (tokenize q)).isEmpty = false)
    (hsep : findTokIdx isSepHere (tokenize q) = some i) :
    classify q =
      (if (codesOf ((tokenize q).take i)).isEmpty ||
          (codesOf ((tokenize q).drop (i + 1))).isEmpty
       then .ok (fallbackClassify (codesOf (tokenize q)) q)
       else .ok ⟨.comparison, codesOf ((tokenize q).take i),
         some (codesOf ((tokenize q).drop (i + 1))), q⟩) := by
  simp only [classify, hne, hsep, Bool.false_eq_true, if_false]

theorem classify_eq_nosep_kw (q : String)
    (hne : (codesOf (tokenize q)).isEmpty = false)
    (hsep : findTokIdx isSepHere (tokenize q) = none)
    (hkw : hasCompareKeyword (tokenize q) = true) :
    classify q =
      (match conjSplit (tokenize q) with
       | some (l, r) => .ok ⟨.comparison, l, some r, q⟩
       | none => .ok (fallbackClassify (codesOf (tokenize q)) q)) := by
  simp only [classify, hne, hsep, hkw, Bool.false_eq_true, if_false, if_true]

theorem classify_eq_nosep_nokw (q : String)
    (hne : (codesOf (tokenize q)).isEmpty = false)
    (hsep : findTokIdx isSepHere (tokenize q) = none)
    (hkw : hasCompareKeyword (tokenize q) = false) :
    classify q = .ok (fallbackClassify (codesOf (tokenize q)) q) := by
  simp only [classify, hne, hsep, hkw, Bool.false_eq_true, if_false]

/-- The fallback classification of a non-empty code list satisfies the
§3 invariants. -/
theorem fallback_invariants (codes : List String) (q : String)
    (hne : codes ≠ []) :
    (((fallbackClassify codes q).right_group.isSome = true) ↔
      (fallbackClassify codes q).comparison_type = .comparison) ∧
    (fallbackClassify codes q).right_group ≠ some [] ∧
    (fallbackClassify codes q).left_group ≠ [] := by
  unfold fallbackClassify
  split <;> simp [hne]

/-! ## Claim theorems about the Query Classifier Stage -/

/-- Claim C3: every `QueryStructure` the classifier produces has
`right_group` present iff `comparison_type` is `comparison`, never
carries an empty sequence as `right_group`, and has a non-empty
`left_group`. -/
theorem classify_right_group_iff (q : String) (qs : QueryStructure)
    (h : classify q = .ok qs) :
    (qs.right_group.isSome = true ↔ qs.comparison_type = .comparison) ∧
    qs.right_group ≠ some [] ∧ qs.left_group ≠ [] := by
  cases hE : (codesOf (tokenize q)).isEmpty with
  | true =>
    rw [classify_eq_of_empty q hE] at h
    exact Except.noConfusion h
  | false =>
    have hcodes : codesOf (tokenize q) ≠ [] := ne_nil_of_isEmpty_false hE
    cases hsep : findTokIdx isSepHere (tokenize q) with
    | some i =>
      rw [classify_eq_sep q i hE hsep] at h
      by_cases hc : ((codesOf ((tokenize q).take i)).isEmpty ||
          (codesOf ((tokenize q).drop (i + 1))).isEmpty) = true
      · rw [if_pos hc] at h
        injection h with h2
        rw [← h2]
        exact fallback_invariants _ q hcodes
      · rw [if_neg hc] at h
        injection h with h2
        simp only [Bool.or_eq_true, not_or] at hc
        obtain ⟨hc1, hc2⟩ := hc
        have hl3 : codesOf ((tokenize q).take i) ≠ [] := by
          intro hnil; exact hc1 (by simp [hnil])
        have hr3 : codesOf ((tokenize q).drop (i + 1)) ≠ [] := by
          intro hnil; exact hc2 (by simp [hnil])
        rw [← h2]
        exact ⟨by simp, by simp [hr3], by simp [hl3]⟩
    | none =>
      cases hkw : hasCompareKeyword (tokenize q) with
      | true =>
        rw [classify_eq_nosep_kw q hE hsep hkw] at h
        cases hcs : conjSplit (tokenize q) with
        | none =>
          rw [hcs] at h
          injection h with h2
          rw [← h2]
          exact fallback_invariants _ q hcodes
        | some pr =>
          obtain ⟨l, r⟩ := pr
          rw [hcs] at h
          injection h with h2
          rw [← h2]
          obtain ⟨hl, hr⟩ := conjSplit_nonempty hcs
          exact ⟨by simp, by simp [hr], hl⟩
      | false =>
        rw [classify_eq_nosep_nokw q hE hsep hkw] at h
        injection h with h2
        rw [← h2]
        exact fallback_invariants _ q hcodes

/-- Claim C5: a query whose text contains exactly one maximal run of
exactly 5 digits classifies as `single` with that code as the whole
left group and no right group. -/
theorem classify_single_code (q : String) (c : String)
    (h : codesOf (tokenize q) = [c]) :
    classify q = .ok ⟨.single, [c], none, q⟩ := by
  have hne2 : (codesOf (tokenize q)).isEmpty = false := by rw [h]; rfl
  have hfb : fallbackClassify (codesOf (tokenize q)) q =
      ⟨.single, [c], none, q⟩ := by
    rw [h]; unfold fallbackClassify; simp
  cases hsep : findTokIdx isSepHere (tokenize q) with
  | some i =>
    rw [classify_eq_sep q i hne2 hsep]
    have hpart := codesOf_split_at_find isSepHere
      (fun t rest ht => isSepHere_code_none ht) (tokenize q) i hsep
    rw [h] at hpart
    rcases append_eq_single hpart.symm with ⟨h1, h2⟩ | ⟨h1, h2⟩ <;>
      simp [h1, h2, hfb]
  | none =>
    cases hkw : hasCompareKeyword (tokenize q) with
    | true =>
      rw [classify_eq_nosep_kw q hne2 hsep hkw, conjSplit_of_singleton h]
      simp [hfb]
    | false =>
      rw [classify_eq_nosep_nokw q hne2 hsep hkw, hfb]

/-- Claim C6: a query with a separator token that has extracted codes on
both sides classifies as `comparison`; the left group is exactly the
codes appearing before the separator and the right group exactly the
codes after it (order preserved), and together they partition all
extracted codes. -/
theorem classify_sep_comparison (q : String) (i : Nat)
    (hsep : findTokIdx isSepHere (tokenize q) = some i)
    (hl : codesOf ((tokenize q).take i) ≠ [])
    (hr : codesOf ((tokenize q).drop (i + 1)) ≠ []) :
    classify q =
      .ok ⟨.comparison, codesOf ((tokenize q).take i),
        some (codesOf ((tokenize q).drop (i + 1))), q⟩ ∧
    codesOf ((tokenize q).take i) ++ codesOf ((tokenize q).drop (i + 1)) =
      codesOf (tokenize q) := by
  have hpart := codesOf_split_at_find isSepHere
    (fun t rest ht => isSepHere_code_none ht) (tokenize q) i hsep
  have hne2 : (codesOf (tokenize q)).isEmpty = false := by
    rw [hpart]
    cases hcl : codesOf ((tokenize q).take i) with
    | nil => exact absurd hcl hl
    | cons a t => rfl
  refine ⟨?_, hpart.symm⟩
  rw [classify_eq_sep q i hne2 hsep]
  simp [isEmpty_false_of_ne hl, isEmpty_false_of_ne hr]

/-- Claim C8: the classifier fails with the `ParseError` validation
error exactly when zero postal codes can be extracted from the query;
otherwise it produces a `QueryStructure`. -/
theorem classify_fails_iff_no_codes (q : String) :
    classify q = .error ParseError.noCodes ↔ codesOf (tokenize q) = [] := by
  constructor
  · intro h
    by_contra hne
    have hne2 : (codesOf (tokenize q)).isEmpty = false :=
      isEmpty_false_of_ne hne
    cases hsep : findTokIdx isSepHere (tokenize q) with
    | some i =>
      rw [classify_eq_sep q i hne2 hsep] at h
      by_cases hc : ((codesOf ((tokenize q).take i)).isEmpty ||
          (codesOf ((tokenize q).drop (i + 1))).isEmpty) = true
      · rw [if_pos hc] at h; exact Except.noConfusion h
      · rw [if_neg hc] at h; exact Except.noConfusion h
    | none =>
      cases hkw : hasCompareKeyword (tokenize q) with
      | true =>
        rw [classify_eq_nosep_kw q hne2 hsep hkw] at h
        cases hcs : conjSplit (tokenize q) with
        | none => rw [hcs] at h; exact Except.noConfusion h
        | some pr =>
          obtain ⟨l, r⟩ := pr
          rw [hcs] at h
          exact Except.noConfusion h
      | false =>
        rw [classify_eq_nosep_nokw q hne2 hsep hkw] at h
        exact Except.noConfusion h
  · intro h
    apply classify_eq_of_empty
    rw [h]
    rfl

/-! ## Claim theorems about the Pipeline Controller -/

/-- Claim C1: the controller executes the four declared stages strictly
in declaration order, exactly once each, publishing each completed
stage's output under its declared output key into the shared per-run
context. -/
theorem rootAgent_executes_in_order
    (f1 f2 f3 f4 : PContext → Except String JValue) (ctx : PContext)
    (v1 v2 v3 v4 : JValue)
    (h1 : f1 ctx = .ok v1)
    (h2 : f2 (ctx ++ [("query_structure", v1)]) = .ok v2)
    (h3 : f3 (ctx ++ [("query_structure", v1), ("zip_data", v2)]) = .ok v3)
    (h4 : f4 (ctx ++ [("query_structure", v1), ("zip_data", v2),
      ("slide_params", v3)]) = .ok v4) :
    runPipeline (rootAgentStages f1 f2 f3 f4) ctx =
      (.completed,
       ctx ++ [("query_structure", v1), ("zip_data", v2),
         ("slide_params", v3)],
       ["query_analyzer", "zip_data_retriever", "data_formatter",
        "slide_builder"]) := by
  simp [runPipeline, rootAgentStages, runFrom, publish, h1, h2, h3, h4]

/-- On a failure outcome, the executed-stage trace is exactly the stages
up to and including the failing one, in order. -/
theorem runFrom_failed_trace :
    ∀ (stages : List PStage) (i0 : Nat) (ctx : PContext) (i : Nat)
      (e : String) (c : PContext) (tr : List String),
      runFrom stages i0 ctx = (.failed i e, c, tr) →
      i0 ≤ i ∧ i < i0 + stages.length ∧
        tr = (stages.take (i + 1 - i0)).map PStage.name := by
  intro stages
  induction stages with
  | nil =>
    intro i0 ctx i e c tr h
    simp [runFrom] at h
  | cons s rest ih =>
    intro i0 ctx i e c tr h
    rw [runFrom] at h
    cases hrun : s.runStage ctx with
    | error e2 =>
      rw [hrun] at h
      simp only [Prod.mk.injEq] at h
      obtain ⟨hst, hc, htr⟩ := h
      injection hst with hi he
      subst hi
      refine ⟨le_refl i0, by simp, ?_⟩
      rw [← htr]
      simp
    | ok v =>
      rw [hrun] at h
      rcases hnext : runFrom rest (i0 + 1) (publish ctx s.outputKey v) with
        ⟨st2, c2, tr2⟩
      simp only [hnext, Prod.mk.injEq] at h
      obtain ⟨hst, hc, htr⟩ := h
      subst hst
      obtain ⟨hle, hlt, htr2⟩ := ih (i0 + 1) (publish ctx s.outputKey v) i e
        c2 tr2 hnext
      refine ⟨by omega, ?_, ?_⟩
      · simp only [List.length_cons]; omega
      · rw [← htr]
        have hik : i + 1 - i0 = (i + 1 - (i0 + 1)) + 1 := by omega
        rw [hik, List.take_succ_cons, List.map_cons, htr2]

/-- Claim C2: if a stage of `root_agent` fails, the controller enters
the failed state having executed exactly the stages up to the failing
one; no later stage runs, and in particular the slide builder (the
Render Stage) is never reached unless it is itself the failing stage,
so no partial `SlideParameters` is ever passed to it. -/
theorem rootAgent_failure_halts
    (f1 f2 f3 f4 : PContext → Except String JValue) (ctx : PContext)
    (i : Nat) (e : String) (c : PContext) (tr : List String)
    (h : runPipeline (rootAgentStages f1 f2 f3 f4) ctx =
      (.failed i e, c, tr)) :
    tr = (["query_analyzer", "zip_data_retriever", "data_formatter",
      "slide_builder"].take (i + 1)) ∧
    i < 4 ∧ ("slide_builder" ∈ tr → i = 3) := by
  obtain ⟨-, hlt, htr⟩ := runFrom_failed_trace (rootAgentStages f1 f2 f3 f4)
    0 ctx i e c tr h
  simp only [rootAgentStages, List.length_cons, List.length_nil] at hlt
  have hi4 : i < 4 := by omega
  have htr2 : tr = (["query_analyzer", "zip_data_retriever",
      "data_formatter", "slide_builder"].take (i + 1)) := by
    rw [htr]
    interval_cases i <;> simp [rootAgentStages]
  refine ⟨htr2, hi4, ?_⟩
  intro hmem
  rw [htr2] at hmem
  interval_cases i <;> simp_all [rootAgentStages]

/-! ## Claim theorem about the Data Retrieval Stage -/

/-- Claim C4: the retriever's fetch-call trace is exactly one call with
`left_group` followed by one call with `right_group` exactly when the
right group is present; results are stored verbatim, and the number of
calls equals the number of non-absent groups (1 or 2). -/
theorem zip_data_retriever_calls {α : Type} (fetch : List String → α)
    (qs : QueryStructure) :
    (zip_data_retriever fetch qs).2 =
      qs.left_group :: qs.right_group.toList ∧
    (zip_data_retriever fetch qs).1.left_data = fetch qs.left_group ∧
    (zip_data_retriever fetch qs).1.right_data =
      qs.right_group.map fetch ∧
    (zip_data_retriever fetch qs).2.length =
      1 + qs.right_group.toList.length ∧
    (zip_data_retriever fetch qs).2.length ≤ 2 := by
  rcases qs with ⟨t, lg, rg, oq⟩
  cases rg <;> simp [zip_data_retriever]

/-! ## Shape lemmas for the Formatting Stage -/

theorem isItem_mkItem (l v : String) : isItem (mkItem l v) = true := rfl

theorem isBottomShape_mkBottom (t s : String) :
    isBottomShape (mkBottom t s) = true := rfl

theorem hasField_mkBottom_items (t s : String) :
    hasField (mkBottom t s) "items" = false := rfl

theorem isPanelShape_mkBottom (t s : String) :
    isPanelShape (mkBottom t s) = false := rfl

theorem isBottomShape_mkPanel (t : String) (d : ZipData) :
    isBottomShape (mkPanel t d) = false := rfl

theorem panelItems_all_isItem (d : ZipData) :
    (panelItems d).all isItem = true := by
  rcases d with ⟨a, b, c, e, f⟩
  cases a <;> cases b <;> cases c <;> cases e <;> cases f <;>
    simp [panelItems, isItem_mkItem]

theorem isPanelShape_mkPanel (t : String) (d : ZipData) :
    isPanelShape (mkPanel t d) = true :=
  panelItems_all_isItem d

/-- Claim C7: every `SlideParameters` the Formatting Stage produces uses
the `{title, items[]}` shape for the left panel (and the right panel
when present) and the disjoint `{title, text}` shape for the bottom
panel; the bottom panel never carries an `items` field, and the two
shapes are never interchanged. -/
theorem data_formatter_shapes (qs : QueryStructure)
    (bundle : RawDataBundle ZipData) (out : SlideParameters)
    (h : data_formatter qs bundle = .ok out) :
    isPanelShape out.left_panel = true ∧
    Option.all isPanelShape out.right_panel = true ∧
    isBottomShape out.bottom_panel = true ∧
    hasField out.bottom_panel "items" = false ∧
    isPanelShape out.bottom_panel = false ∧
    isBottomShape out.left_panel = false := by
  rcases qs with ⟨t, lg, rg, oq⟩
  rcases bundle with ⟨ld, rd⟩
  cases t <;> rcases rg with _ | rz <;> rcases rd with _ | rdd <;>
    simp [data_formatter] at h <;> rw [← h] <;>
    simp [Option.all, isPanelShape_mkPanel, isBottomShape_mkBottom,
      hasField_mkBottom_items, isPanelShape_mkBottom, isBottomShape_mkPanel]

/-- Claim C9: the `state` field of every Formatting Stage output is
derived from the first code of `left_group` through the fixed
numeric-range-to-region table; an unresolvable range degrades softly to
the placeholder value, and resolvability never affects whether the
stage succeeds. -/
theorem data_formatter_state_soft (qs : QueryStructure)
    (bundle : RawDataBundle ZipData) :
    Except.map SlideParameters.state (data_formatter qs bundle) =
      Except.map (fun _ => inferState qs.left_group)
        (data_formatter qs bundle) ∧
    (regionOfZip (qs.left_group.headD "") = none →
      Except.map SlideParameters.state (data_formatter qs bundle) =
        Except.map (fun _ => placeholderRegion)
          (data_formatter qs bundle)) ∧
    ((data_formatter qs bundle).isOk = true ↔
      (qs.comparison_type = .comparison →
        qs.right_group.isSome = true ∧ bundle.right_data.isSome = true)) := by
  rcases qs with ⟨t, lg, rg, oq⟩
  rcases bundle with ⟨ld, rd⟩
  refine ⟨?_, ?_, ?_⟩
  · cases t <;> rcases rg with _ | rz <;> rcases rd with _ | rdd <;>
      simp [data_formatter, Except.map]
  · intro hnone
    have hplace : inferState lg = placeholderRegion := by
      cases lg with
      | nil => rfl
      | cons z zs =>
        simp only [List.headD_cons] at hnone
        simp [inferState, hnone]
    cases t <;> rcases rg with _ | rz <;> rcases rd with _ | rdd <;>
      simp [data_formatter, hplace, Except.map]
  · cases t <;> rcases rg with _ | rz <;> rcases rd with _ | rdd <;>
      simp [data_formatter, Except.isOk, Except.toBool]

/-! ## Claim theorem about get_weather -/

/-- Claim C10: `get_weather` always returns a dictionary with a
`status` key; the status is `success` with a `report` field exactly for
the three known cities matched case-insensitively, and is `error` with
an `error_message` field for every other input.  The embedded function
is total, mirroring that the Python function never raises. -/
theorem get_weather_contract (city : String) :
    ((get_weather city).lookup "status").isSome = true ∧
    (((get_weather city).lookup "status" = some "success" ∧
        ((get_weather city).lookup "report").isSome = true) ↔
      city.toLower ∈ knownWeatherCities) ∧
    (((get_weather city).lookup "status" = some "error" ∧
        ((get_weather city).lookup "error_message").isSome = true) ↔
      ¬ city.toLower ∈ knownWeatherCities) := by
  by_cases h1 : city.toLower = "new york"
  · simp [get_weather, knownWeatherCities, h1, List.lookup]
  · by_cases h2 : city.toLower = "san francisco"
    · simp [get_weather, knownWeatherCities, h1, h2, List.lookup]
    · by_cases h3 : city.toLower = "london"
      · simp [get_weather, knownWeatherCities, h1, h2, h3, List.lookup]
      · simp [get_weather, knownWeatherCities, h1, h2, h3, List.lookup]

/-! ## Witnesses: the claim theorems applied at concrete inputs -/

/-- Witness for C1: the four-stage pipeline run from an empty context
with concrete succeeding stage behaviours. -/
theorem rootAgent_executes_in_order_witness :
    runPipeline (rootAgentStages (fun _ => .ok (.str "a"))
        (fun _ => .ok (.str "b")) (fun _ => .ok (.str "c"))
        (fun _ => .ok (.str "d"))) [] =
      (.completed,
       ([] : PContext) ++ [("query_structure", .str "a"),
         ("zip_data", .str "b"), ("slide_params", .str "c")],
       ["query_analyzer", "zip_data_retriever", "data_formatter",
        "slide_builder"]) :=
  rootAgent_executes_in_order (fun _ => .ok (.str "a"))
    (fun _ => .ok (.str "b")) (fun _ => .ok (.str "c"))
    (fun _ => .ok (.str "d")) [] (.str "a") (.str "b") (.str "c") (.str "d")
    rfl rfl rfl rfl

/-- Witness for C2: the retriever stage fails, so exactly the first two
stages execute and the slide builder is never reached. -/
theorem rootAgent_failure_halts_witness :
    ["query_analyzer", "zip_data_retriever"] =
      (["query_analyzer", "zip_data_retriever", "data_formatter",
        "slide_builder"].take (1 + 1)) ∧
    1 < 4 ∧
    ("slide_builder" ∈ ["query_analyzer", "zip_data_retriever"] → 1 = 3) :=
  rootAgent_failure_halts (fun _ => .ok (.str "a")) (fun _ => .error "boom")
    (fun _ => .ok (.str "c")) (fun _ => .ok (.str "d")) [] 1 "boom"
    [("query_structure", .str "a")] ["query_analyzer", "zip_data_retriever"]
    rfl

/-- Witness for C3 at the Scenario A query. -/
theorem classify_right_group_iff_witness :
    classify scenarioAQuery = .ok sampleQS ∧
    ((sampleQS.right_group.isSome = true ↔
        sampleQS.comparison_type = .comparison) ∧
      sampleQS.right_group ≠ some [] ∧ sampleQS.left_group ≠ []) :=
  ⟨rfl, classify_right_group_iff scenarioAQuery sampleQS rfl⟩

/-- Witness for C4 at the Scenario A query structure. -/
theorem zip_data_retriever_calls_witness :
    (zip_data_retriever (fun l : List String => l.length) sampleQS).2 =
      sampleQS.left_group :: sampleQS.right_group.toList ∧
    (zip_data_retriever (fun l : List String => l.length) sampleQS).1.left_data =
      sampleQS.left_group.length ∧
    (zip_data_retriever (fun l : List String => l.length) sampleQS).1.right_data =
      sampleQS.right_group.map (fun l : List String => l.length) ∧
    (zip_data_retriever (fun l : List String => l.length) sampleQS).2.length =
      1 + sampleQS.right_group.toList.length ∧
    (zip_data_retriever (fun l : List String => l.length) sampleQS).2.length ≤ 2 :=
  zip_data_retriever_calls (fun l : List String => l.length) sampleQS

/-- Witness for C5: Scenario A — exactly one 5-digit run yields the
`single` classification with that code and no right group. -/
theorem classify_single_code_witness :
    codesOf (tokenize scenarioAQuery) = ["30045"] ∧
    classify scenarioAQuery =
      .ok ⟨.single, ["30045"], none, scenarioAQuery⟩ :=
  ⟨rfl, classify_single_code scenarioAQuery "30045" rfl⟩

/-- Witness for C6: Scenario B — the `vs` separator splits the four
codes into two ordered groups that partition the extraction. -/
theorem classify_sep_comparison_witness :
    classify scenarioBQuery =
      .ok ⟨.comparison, codesOf ((tokenize scenarioBQuery).take 2),
        some (codesOf ((tokenize scenarioBQuery).drop 3)), scenarioBQuery⟩ ∧
    codesOf ((tokenize scenarioBQuery).take 2) ++
        codesOf ((tokenize scenarioBQuery).drop 3) =
      codesOf (tokenize scenarioBQuery) :=
  classify_sep_comparison scenarioBQuery 2 rfl (by decide) (by decide)

/-- Witness for C7 at a concrete single-code formatting run. -/
theorem data_formatter_shapes_witness :
    isPanelShape sampleSlide.left_panel = true ∧
    Option.all isPanelShape sampleSlide.right_panel = true ∧
    isBottomShape sampleSlide.bottom_panel = true ∧
    hasField sampleSlide.bottom_panel "items" = false ∧
    isPanelShape sampleSlide.bottom_panel = false ∧
    isBottomShape sampleSlide.left_panel = false :=
  data_formatter_shapes sampleQS sampleBundle sampleSlide rfl

/-- Witness for C8: a query with no digits at all fails with the parse
error. -/
theorem classify_fails_iff_no_codes_witness :
    classify "no codes here" = .error ParseError.noCodes :=
  (classify_fails_iff_no_codes "no codes here").mpr rfl

/-- Witness for C9 at the concrete single-code formatting run. -/
theorem data_formatter_state_soft_witness :
    Except.map SlideParameters.state (data_formatter sampleQS sampleBundle) =
      Except.map (fun _ => inferState sampleQS.left_group)
        (data_formatter sampleQS sampleBundle) ∧
    (regionOfZip (sampleQS.left_group.headD "") = none →
      Except.map SlideParameters.state (data_formatter sampleQS sampleBundle) =
        Except.map (fun _ => placeholderRegion)
          (data_formatter sampleQS sampleBundle)) ∧
    ((data_formatter sampleQS sampleBundle).isOk = true ↔
      (sampleQS.comparison_type = .comparison →
        sampleQS.right_group.isSome = true ∧
        sampleBundle.right_data.isSome = true)) :=
  data_formatter_state_soft sampleQS sampleBundle

/-- Witness for C10 at a capitalised city name, exercising the
case-insensitive match. -/
theorem get_weather_contract_witness :
    ((get_weather "London").lookup "status").isSome = true ∧
    (((get_weather "London").lookup "status" = some "success" ∧
        ((get_weather "London").lookup "report").isSome = true) ↔
      "London".toLower ∈ knownWeatherCities) ∧
    (((get_weather "London").lookup "status" = some "error" ∧
        ((get_weather "London").lookup "error_message").isSome = true) ↔
      ¬ "London".toLower ∈ knownWeatherCities) :=
  get_weather_contract "London"

end AdkPlayground
